import Mathlib

/-!
Verification of the kazam-custom noise-cleaning pipeline (`sox.py`).

The program is sequential shell-out glue: it builds command strings for
`ffmpeg`/`sox`, runs them via `os.system`, tracks intermediate temporary
files and deletes them at the end of a successful run.

We shallowly embed the program as a state-and-error monad `M` over a
`World` that records:
  * `nextTmp`   — the counter of the temp-name allocator
                  (`tempfile.NamedTemporaryFile(delete := False)` creates a
                  fresh file on disk and returns its unique name; we model
                  the allocated names as `/tmp/tmp0`, `/tmp/tmp1`, …);
  * `fs`        — which file paths currently exist on disk;
  * `oracle`    — the behaviour of the n-th external process started via
                  `os.system`: its exit status, and whether it wrote its
                  output file;
  * `execCount` — how many external processes have been started;
  * `trace`     — the command strings passed to `os.system`, in order.

Python exceptions are modelled by the error component of `M`:
`Err.generic` is the bare `raise Exception`, `Err.fileNotFound` is the
`FileNotFoundError` that `os.unlink` raises on a missing path, and
`Err.valueError` / `Err.indexError` model the `ValueError` of `float()` /
tuple unpacking and the `IndexError` of `list.pop`.

Python `float` values only ever reach a command line through `'%s' %`
formatting, so the embedding carries them as their rendered strings
(`0.21` renders as "0.21", `1.5` as "1.5").
-/

/-- Outcome of one external process started via `os.system`: its exit
status, and whether it produced (wrote) its designated output file. -/
structure ExecResult where
  exit : Nat
  wrote : Bool
deriving DecidableEq, Repr

/-- Python exceptions that the program can raise. -/
inductive Err where
  | generic                      -- `raise Exception`
  | fileNotFound (path : String) -- `os.unlink` on a missing file
  | valueError                   -- `float()` failure / unpacking mismatch
  | indexError                   -- `list.pop(idx)` out of range
deriving DecidableEq, Repr

/-- The world the program acts on: temp-name counter, filesystem,
external-process oracle, process counter and command trace. -/
structure World where
  nextTmp : Nat
  execCount : Nat
  fs : String → Bool
  oracle : Nat → ExecResult
  trace : List String

/-- State-and-error monad: a computation transforms the world and either
returns a value or raises an exception (the world on the error side
records everything that happened up to the raise). -/
def M (α : Type) : Type := World → Except Err α × World

instance : Monad M where
  pure a := fun w => (Except.ok a, w)
  bind x f := fun w =>
    match x w with
    | (Except.ok a, w1) => f a w1
    | (Except.error e, w1) => (Except.error e, w1)

/-- `raise e` : abort with exception `e`, leaving the world unchanged. -/
def M.raise {α : Type} (e : Err) : M α := fun w => (Except.error e, w)

/-- The name handed out by the n-th call of the temp-file allocator. -/
def tmpName (n : Nat) : String := "/tmp/tmp" ++ toString n

/-- `tempfile.NamedTemporaryFile(delete := False).name ++ "." ++ suffix`:
allocates a fresh base name, creates the (suffix-less) base file on disk,
and returns the base name with the suffix appended.  The suffixed file is
NOT created here; the external tool is expected to write it. -/
def mkTemp (suffix : String) : M String := fun w =>
  let base := tmpName w.nextTmp
  (Except.ok (base ++ "." ++ suffix),
   { w with nextTmp := w.nextTmp + 1,
            fs := fun g => if g = base then true else w.fs g })

/-- `os.unlink f`: deletes `f` if it exists, raises `FileNotFoundError`
otherwise. -/
def unlink (f : String) : M Unit := fun w =>
  if w.fs f then
    (Except.ok (), { w with fs := fun g => if g = f then false else w.fs g })
  else
    (Except.error (Err.fileNotFound f), w)

/-- `os.system cmd`: records the command in the trace, consumes the next
oracle entry, and creates `outfile` on disk when the process wrote it.
Returns the exit status.  (`outfile` is a parameter of the model because
only the surrounding code knows which file the command targets.) -/
def osSystem (cmd outfile : String) : M Nat := fun w =>
  let r := w.oracle w.execCount
  (Except.ok r.exit,
   { w with execCount := w.execCount + 1,
            trace := w.trace ++ [cmd],
            fs := fun g => if g = outfile then (r.wrote || w.fs g) else w.fs g })

/-- `Sox.exec_shell_cmd_for_file`:
```python
if os.system(cmd) == 0: return outfile
else: os.unlink(outfile); raise Exception
``` -/
def exec_shell_cmd_for_file (cmd outfile : String) : M String := do
  let status ← osSystem cmd outfile
  if status = 0 then
    pure outfile
  else do
    unlink outfile
    M.raise Err.generic

/-- The class-level constants of `Sox`. -/
def avprog : String := "ffmpeg"

def soxprog : String := "sox"

def audio_suffix : String := "mp3"

def video_suffix : String := "mp4"

def noise_len : String := "00:00:01"

/-- `noise_sens = 0.21`, carried as its `'%s'` rendering. -/
def noise_sens : String := "0.21"

/-- A `Sox` instance: the input path and the resolved output path
(`outfile` stays `none` when the Python attribute is `None`). -/
structure Sox where
  infile : String
  outfile : Option String
deriving DecidableEq, Repr

/-- `Sox.__init__(infile, outfile=None, overwrite=False)`:
`self.outfile = infile if overwrite else outfile`. -/
def Sox.init (infile : String) (outfile : Option String := none)
    (overwrite : Bool := false) : Sox :=
  ⟨infile, if overwrite then some infile else outfile⟩

/-- `'%s' %` rendering of a possibly-`None` Python string. -/
def optStr : Option String → String
  | some s => s
  | none => "None"

/-- The command string built by `Sox.__extract`:
`'%s -y -i %s %s %s %s' % (avprog, infile, acodec_str, vcodec_str, outfile)`. -/
def fmt_extract (infile acodec_str vcodec_str outfile : String) : String :=
  avprog ++ " -y -i " ++ infile ++ " " ++ acodec_str ++ " " ++ vcodec_str ++ " " ++ outfile

/-- `Sox.__extract(acodec, vcodec, suffix)`. -/
def Sox.extract (s : Sox) (acodec vcodec : Option String) (suffix : String) :
    M String := do
  let outfile ← mkTemp suffix
  let acodec_str := match acodec with
    | some a => "-acodec " ++ a
    | none => "-an"
  let vcodec_str := match vcodec with
    | some v => "-vcodec " ++ v
    | none => "-vn"
  exec_shell_cmd_for_file (fmt_extract s.infile acodec_str vcodec_str outfile) outfile

/-- `Sox.extract_video`: `self.__extract(None, 'copy', self.video_suffix)`. -/
def Sox.extract_video (s : Sox) : M String :=
  s.extract none (some "copy") video_suffix

/-- `Sox.extract_audio`: `self.__extract('copy', None, self.audio_suffix)`. -/
def Sox.extract_audio (s : Sox) : M String :=
  s.extract (some "copy") none audio_suffix

/-- The command string built by `Sox.get_noise_sample`. -/
def fmt_noise_sample (audio len outfile : String) : String :=
  avprog ++ " -y -i " ++ audio ++ " -acodec copy -ss 00:00:00 -t " ++ len ++ " " ++ outfile

/-- `Sox.get_noise_sample(audio)`. -/
def Sox.get_noise_sample (_ : Sox) (audio : String) : M String := do
  let outfile ← mkTemp audio_suffix
  exec_shell_cmd_for_file (fmt_noise_sample audio noise_len outfile) outfile

/-- The command string built by `Sox.gen_noise_profile`. -/
def fmt_noise_profile (sample outfile : String) : String :=
  soxprog ++ " " ++ sample ++ " -n noiseprof " ++ outfile

/-- `Sox.gen_noise_profile(sample)` (temp name gets suffix `.prof`). -/
def Sox.gen_noise_profile (_ : Sox) (sample : String) : M String := do
  let outfile ← mkTemp "prof"
  exec_shell_cmd_for_file (fmt_noise_profile sample outfile) outfile

/-- The command string built by `Sox.remove_noise`. -/
def fmt_remove_noise (audio outfile profile sensitivity : String) : String :=
  soxprog ++ " " ++ audio ++ " " ++ outfile ++ " noisered " ++ profile ++ " " ++ sensitivity

/-- `Sox.remove_noise(audio, profile, sensitivity)`. -/
def Sox.remove_noise (_ : Sox) (audio profile sensitivity : String) : M String := do
  let outfile ← mkTemp audio_suffix
  exec_shell_cmd_for_file (fmt_remove_noise audio outfile profile sensitivity) outfile

/-- The command string built by `Sox.merge`. -/
def fmt_merge (video audio outfile : String) : String :=
  avprog ++ " -y -i " ++ video ++ " -i " ++ audio ++ " -vcodec copy -acodec copy " ++ outfile

/-- `Sox.merge(video, audio)`: remuxes into `self.outfile`. -/
def Sox.merge (s : Sox) (video audio : String) : M String :=
  exec_shell_cmd_for_file (fmt_merge video audio (optStr s.outfile)) (optStr s.outfile)

/-- The command string built by `Sox.increase_volume`. -/
def fmt_increase_volume (factor audio outfile : String) : String :=
  soxprog ++ " -v " ++ factor ++ " " ++ audio ++ " " ++ outfile

/-- `Sox.increase_volume(audio, factor)`. -/
def Sox.increase_volume (_ : Sox) (audio factor : String) : M String := do
  let outfile ← mkTemp audio_suffix
  exec_shell_cmd_for_file (fmt_increase_volume factor audio outfile) outfile

/-- `Sox.clean(self)`: the six-stage noise-removal pipeline followed by
deletion of the five intermediate artifacts. -/
def Sox.clean (s : Sox) : M Unit := do
  let video_only_file ← s.extract_video
  let audio_only_file ← s.extract_audio
  let noise_sample ← s.get_noise_sample audio_only_file
  let noise_profile ← s.gen_noise_profile noise_sample
  let clean_audio ← s.remove_noise audio_only_file noise_profile noise_sens
  let _ ← s.merge video_only_file clean_audio
  unlink video_only_file
  unlink audio_only_file
  unlink noise_sample
  unlink noise_profile
  unlink clean_audio

/-- `Sox.incrvol(self, factor=1.5)`: the four-stage volume-boost pipeline
followed by deletion of the three intermediate artifacts. -/
def Sox.incrvol (s : Sox) (factor : String := "1.5") : M Unit := do
  let video_only_file ← s.extract_video
  let audio_only_file ← s.extract_audio
  let louder_audio ← s.increase_volume audio_only_file factor
  let _ ← s.merge video_only_file louder_audio
  unlink video_only_file
  unlink audio_only_file
  unlink louder_audio

/-- `os.path.basename`: the part of the path after the last `/`. -/
def basename (p : String) : String :=
  String.mk (p.data.foldl (fun acc c => if c = '/' then [] else acc ++ [c]) [])

/-- The four lines printed by the usage branch of `__main__`. -/
def usageLines (base : String) : List String :=
  ["Clean the noise:",
   base ++ " -c IN-FILE OUT-FILE",
   "\nIncrease the volume",
   base ++ " -v FACTOR IN-FILE OUT-FILE"]

/-- The `__main__` block.  `parse` models Python `float()` : it returns the
`'%s'` rendering of the parsed float, or `none` when `float()` raises
`ValueError`.  The result carries the printed lines and the exit code. -/
def mainM (parse : String → Option String) (argv : List String) :
    M (List String × Nat) :=
  if "-v" ∈ argv then
    let idx := argv.indexOf "-v"
    let argv1 := argv.eraseIdx idx          -- sys.argv.pop(idx), drop '-v'
    match argv1.get? idx with               -- sys.argv.pop(idx), the factor
    | none => M.raise Err.indexError
    | some fstr =>
      match parse fstr with                 -- float(...)
      | none => M.raise Err.valueError
      | some factor =>
        match argv1.eraseIdx idx with       -- infile, outfile = sys.argv[1:]
        | [_, infile, outfile] => do
            (Sox.init infile (some outfile) false).incrvol factor
            pure ([], 0)
        | _ => M.raise Err.valueError
  else if "-c" ∈ argv then
    match argv.eraseIdx (argv.indexOf "-c") with
    | [_, infile, outfile] => do
        (Sox.init infile (some outfile) false).clean
        pure ([], 0)
    | _ => M.raise Err.valueError
  else
    fun w => (Except.ok (usageLines (basename (argv.headD "")), 1), w)

/-- A fresh world: temp counter and process counter at zero, empty trace. -/
def World.start (fs0 : String → Bool) (oracle : Nat → ExecResult) : World :=
  ⟨0, 0, fs0, oracle, []⟩

/-- Oracle of a run in which every external process succeeds and writes
its output file. -/
def allOk : Nat → ExecResult := fun _ => ⟨0, true⟩

/-- Every temp-allocator name the `clean` pipeline touches when started on
a fresh world: the five suffix-less base files and the five suffixed
artifacts. -/
def cleanTmpAll : List String :=
  ["/tmp/tmp0", "/tmp/tmp1", "/tmp/tmp2", "/tmp/tmp3", "/tmp/tmp4",
   "/tmp/tmp0.mp4", "/tmp/tmp1.mp3", "/tmp/tmp2.mp3", "/tmp/tmp3.prof", "/tmp/tmp4.mp3"]

/-- The five suffix-less base files the allocator creates during `clean`. -/
def cleanTmpBases : List String :=
  ["/tmp/tmp0", "/tmp/tmp1", "/tmp/tmp2", "/tmp/tmp3", "/tmp/tmp4"]

/-- The five intermediate artifacts of `clean`: video-only, audio-only,
noise sample, noise profile, cleaned audio. -/
def cleanArtifacts : List String :=
  ["/tmp/tmp0.mp4", "/tmp/tmp1.mp3", "/tmp/tmp2.mp3", "/tmp/tmp3.prof", "/tmp/tmp4.mp3"]

/-- Every temp-allocator name the `incrvol` pipeline touches on a fresh
world. -/
def incrTmpAll : List String :=
  ["/tmp/tmp0", "/tmp/tmp1", "/tmp/tmp2",
   "/tmp/tmp0.mp4", "/tmp/tmp1.mp3", "/tmp/tmp2.mp3"]

/-- The three suffix-less base files the allocator creates during
`incrvol`. -/
def incrTmpBases : List String := ["/tmp/tmp0", "/tmp/tmp1", "/tmp/tmp2"]

/-- The three intermediate artifacts of `incrvol`: video-only, audio-only,
boosted audio. -/
def incrArtifacts : List String := ["/tmp/tmp0.mp4", "/tmp/tmp1.mp3", "/tmp/tmp2.mp3"]


/-- Oracle of a run whose every external process fails (but writes its
partial output). -/
def failFirst : Nat → ExecResult := fun _ => ⟨1, true⟩

/-- Oracle of a run whose k-th external process fails without writing its
output file, while every other process succeeds. -/
def failAt (k : Nat) : Nat → ExecResult := fun n => if n = k then ⟨1, false⟩ else ⟨0, true⟩

/-- The world after the bookkeeping part of one `exec_shell_cmd_for_file`
step: the command traced, the oracle entry consumed, and the output file
present exactly when the process wrote it (or it already existed). -/
def execWorld (cmd outfile : String) (w : World) : World :=
  { w with execCount := w.execCount + 1,
           trace := w.trace ++ [cmd],
           fs := fun g => if g = outfile then ((w.oracle w.execCount).wrote || w.fs g) else w.fs g }

/-- `PreservesF x f`: computation `x` never changes whether path `f`
exists, from any world and whatever the oracle answers. -/
def PreservesF {α : Type} (x : M α) (f : String) : Prop :=
  ∀ w : World, ((x w).2).fs f = w.fs f

/-! ### Run lemmas for the monad and the primitives -/

theorem run_bind {α β : Type} (x : M α) (k : α → M β) (w : World) :
    (x >>= k) w = match x w with
      | (Except.ok a, w1) => k a w1
      | (Except.error e, w1) => (Except.error e, w1) := rfl

theorem run_pure {α : Type} (a : α) (w : World) :
    (pure a : M α) w = (Except.ok a, w) := rfl

theorem run_mkTemp_bind {β : Type} (sfx : String) (k : String → M β) (w : World) :
    (mkTemp sfx >>= k) w =
      k (tmpName w.nextTmp ++ "." ++ sfx)
        { w with nextTmp := w.nextTmp + 1,
                 fs := fun g => if g = tmpName w.nextTmp then true else w.fs g } := rfl

theorem tmpName0 : tmpName 0 = "/tmp/tmp0" := rfl

theorem tmpName1 : tmpName 1 = "/tmp/tmp1" := rfl

theorem tmpName2 : tmpName 2 = "/tmp/tmp2" := rfl

theorem tmpName3 : tmpName 3 = "/tmp/tmp3" := rfl

theorem tmpName4 : tmpName 4 = "/tmp/tmp4" := rfl

/-- Full characterization of one `exec_shell_cmd_for_file` step: the
command is traced and the oracle consumed; on exit 0 the output path is
returned; on a non-zero exit the output file is deleted and the bare
exception raised when the file exists, and the deletion attempt itself
raises `FileNotFoundError` when it does not. -/
theorem exec_run (cmd outfile : String) (w : World) :
    exec_shell_cmd_for_file cmd outfile w =
      if (w.oracle w.execCount).exit = 0 then
        (Except.ok outfile, execWorld cmd outfile w)
      else if (execWorld cmd outfile w).fs outfile then
        (Except.error Err.generic,
         { execWorld cmd outfile w with
             fs := fun g => if g = outfile then false else (execWorld cmd outfile w).fs g })
      else
        (Except.error (Err.fileNotFound outfile), execWorld cmd outfile w) := by
  by_cases h1 : (w.oracle w.execCount).exit = 0
  · simp [exec_shell_cmd_for_file, osSystem, run_bind, run_pure, execWorld, h1]
  · by_cases h2 : (execWorld cmd outfile w).fs outfile = true
    · simp only [execWorld] at h2 ⊢
      simp at h2
      have h2b : ((w.oracle w.execCount).wrote || w.fs outfile) = true := by
        rcases h2 with h | h <;> simp [h]
      simp [exec_shell_cmd_for_file, osSystem, run_bind, run_pure, unlink, M.raise, h1, h2b]
    · simp only [execWorld] at h2 ⊢
      simp at h2
      have h2b : ((w.oracle w.execCount).wrote || w.fs outfile) = false := by
        simp [h2.1, h2.2]
      simp [exec_shell_cmd_for_file, osSystem, run_bind, run_pure, unlink, M.raise, h1, h2b,
            h2.1, h2.2]

/-- A stage execution never touches a path other than its output file. -/
theorem exec_fs_ne (cmd outfile f : String) (w : World) (hf : f ≠ outfile) :
    (exec_shell_cmd_for_file cmd outfile w).2.fs f = w.fs f := by
  rw [exec_run]
  by_cases h1 : (w.oracle w.execCount).exit = 0
  · simp [h1, execWorld, hf]
  · rw [if_neg h1]
    split <;> simp [execWorld, hf]

/-- A stage execution only ever returns its output path. -/
theorem exec_ok_val (cmd outfile : String) (w : World) (a : String) (w' : World)
    (h : exec_shell_cmd_for_file cmd outfile w = (Except.ok a, w')) : a = outfile := by
  rw [exec_run] at h
  split at h
  · simp only [Prod.mk.injEq] at h
    exact (Except.ok.inj h.1).symm
  · split at h <;> simp at h

theorem preservesF_bind {α β : Type} {x : M α} {k : α → M β} {f : String}
    (P : α → Prop)
    (hx : PreservesF x f)
    (hval : ∀ w a w', x w = (Except.ok a, w') → P a)
    (hk : ∀ a, P a → PreservesF (k a) f) :
    PreservesF (x >>= k) f := by
  intro w
  rw [run_bind]
  rcases hw : x w with ⟨r, w1⟩
  have h1 : w1.fs f = w.fs f := by
    have hx2 := hx w
    rw [hw] at hx2
    exact hx2
  cases r with
  | ok a =>
    have hPa := hval w a w1 hw
    calc ((k a) w1).2.fs f = w1.fs f := hk a hPa w1
    _ = w.fs f := h1
  | error e => exact h1

theorem preservesF_exec (cmd outfile f : String) (hf : f ≠ outfile) :
    PreservesF (exec_shell_cmd_for_file cmd outfile) f :=
  fun w => exec_fs_ne cmd outfile f w hf

theorem preservesF_unlink (g f : String) (hf : f ≠ g) : PreservesF (unlink g) f := by
  intro w
  simp only [unlink]
  split <;> simp [hf]

theorem preservesF_mkTemp (sfx f : String) (hbase : ∀ n, f ≠ tmpName n) :
    PreservesF (mkTemp sfx) f := by
  intro w
  simp [mkTemp, hbase w.nextTmp]

theorem mkTemp_ok_val (sfx : String) (w : World) (a : String) (w' : World)
    (h : mkTemp sfx w = (Except.ok a, w')) : ∃ n, a = tmpName n ++ "." ++ sfx := by
  simp only [mkTemp, Prod.mk.injEq] at h
  exact ⟨w.nextTmp, (Except.ok.inj h.1).symm⟩

/-- `clean` never changes whether a path exists when that path is neither
a temp-allocator name (bare or suffixed) nor the resolved output path —
whatever the oracle answers, so in particular on every failure path. -/
theorem preservesF_clean (s : Sox) (f : String)
    (hbase : ∀ n, f ≠ tmpName n)
    (hart : ∀ n sfx, f ≠ tmpName n ++ "." ++ sfx)
    (hout : f ≠ optStr s.outfile) :
    PreservesF (Sox.clean s) f := by
  simp only [Sox.clean, Sox.extract_video, Sox.extract_audio, Sox.extract,
             Sox.get_noise_sample, Sox.gen_noise_profile, Sox.remove_noise, Sox.merge]
  apply preservesF_bind (fun v => ∃ n, v = tmpName n ++ "." ++ video_suffix)
  · apply preservesF_bind (fun o => ∃ n, o = tmpName n ++ "." ++ video_suffix)
    · exact preservesF_mkTemp _ _ hbase
    · exact fun w a w' h => mkTemp_ok_val _ _ _ _ h
    · rintro o ⟨n, rfl⟩
      exact preservesF_exec _ _ _ (hart n _)
  · intro w a w' h
    rw [run_mkTemp_bind] at h
    exact ⟨w.nextTmp, exec_ok_val _ _ _ _ _ h⟩
  · rintro v ⟨nv, rfl⟩
    apply preservesF_bind (fun a => ∃ n, a = tmpName n ++ "." ++ audio_suffix)
    · apply preservesF_bind (fun o => ∃ n, o = tmpName n ++ "." ++ audio_suffix)
      · exact preservesF_mkTemp _ _ hbase
      · exact fun w a w' h => mkTemp_ok_val _ _ _ _ h
      · rintro o ⟨n, rfl⟩
        exact preservesF_exec _ _ _ (hart n _)
    · intro w a w' h
      rw [run_mkTemp_bind] at h
      exact ⟨w.nextTmp, exec_ok_val _ _ _ _ _ h⟩
    · rintro au ⟨na, rfl⟩
      apply preservesF_bind (fun a => ∃ n, a = tmpName n ++ "." ++ audio_suffix)
      · apply preservesF_bind (fun o => ∃ n, o = tmpName n ++ "." ++ audio_suffix)
        · exact preservesF_mkTemp _ _ hbase
        · exact fun w a w' h => mkTemp_ok_val _ _ _ _ h
        · rintro o ⟨n, rfl⟩
          exact preservesF_exec _ _ _ (hart n _)
      · intro w a w' h
        rw [run_mkTemp_bind] at h
        exact ⟨w.nextTmp, exec_ok_val _ _ _ _ _ h⟩
      · rintro ns ⟨nn, rfl⟩
        apply preservesF_bind (fun a => ∃ n, a = tmpName n ++ "." ++ "prof")
        · apply preservesF_bind (fun o => ∃ n, o = tmpName n ++ "." ++ "prof")
          · exact preservesF_mkTemp _ _ hbase
          · exact fun w a w' h => mkTemp_ok_val _ _ _ _ h
          · rintro o ⟨n, rfl⟩
            exact preservesF_exec _ _ _ (hart n _)
        · intro w a w' h
          rw [run_mkTemp_bind] at h
          exact ⟨w.nextTmp, exec_ok_val _ _ _ _ _ h⟩
        · rintro np ⟨npn, rfl⟩
          apply preservesF_bind (fun a => ∃ n, a = tmpName n ++ "." ++ audio_suffix)
          · apply preservesF_bind (fun o => ∃ n, o = tmpName n ++ "." ++ audio_suffix)
            · exact preservesF_mkTemp _ _ hbase
            · exact fun w a w' h => mkTemp_ok_val _ _ _ _ h
            · rintro o ⟨n, rfl⟩
              exact preservesF_exec _ _ _ (hart n _)
          · intro w a w' h
            rw [run_mkTemp_bind] at h
            exact ⟨w.nextTmp, exec_ok_val _ _ _ _ _ h⟩
          · rintro ca ⟨nc, rfl⟩
            apply preservesF_bind (fun _ : String => True)
            · exact preservesF_exec _ _ _ hout
            · exact fun _ _ _ _ => trivial
            · intro _ _
              apply preservesF_bind (fun _ : Unit => True)
              · exact preservesF_unlink _ _ (hart nv _)
              · exact fun _ _ _ _ => trivial
              · intro _ _
                apply preservesF_bind (fun _ : Unit => True)
                · exact preservesF_unlink _ _ (hart na _)
                · exact fun _ _ _ _ => trivial
                · intro _ _
                  apply preservesF_bind (fun _ : Unit => True)
                  · exact preservesF_unlink _ _ (hart nn _)
                  · exact fun _ _ _ _ => trivial
                  · intro _ _
                    apply preservesF_bind (fun _ : Unit => True)
                    · exact preservesF_unlink _ _ (hart npn _)
                    · exact fun _ _ _ _ => trivial
                    · intro _ _
                      exact preservesF_unlink _ _ (hart nc _)

/-- Same preservation property for `incrvol`. -/
theorem preservesF_incrvol (s : Sox) (factor f : String)
    (hbase : ∀ n, f ≠ tmpName n)
    (hart : ∀ n sfx, f ≠ tmpName n ++ "." ++ sfx)
    (hout : f ≠ optStr s.outfile) :
    PreservesF (Sox.incrvol s factor) f := by
  simp only [Sox.incrvol, Sox.extract_video, Sox.extract_audio, Sox.extract,
             Sox.increase_volume, Sox.merge]
  apply preservesF_bind (fun v => ∃ n, v = tmpName n ++ "." ++ video_suffix)
  · apply preservesF_bind (fun o => ∃ n, o = tmpName n ++ "." ++ video_suffix)
    · exact preservesF_mkTemp _ _ hbase
    · exact fun w a w' h => mkTemp_ok_val _ _ _ _ h
    · rintro o ⟨n, rfl⟩
      exact preservesF_exec _ _ _ (hart n _)
  · intro w a w' h
    rw [run_mkTemp_bind] at h
    exact ⟨w.nextTmp, exec_ok_val _ _ _ _ _ h⟩
  · rintro v ⟨nv, rfl⟩
    apply preservesF_bind (fun a => ∃ n, a = tmpName n ++ "." ++ audio_suffix)
    · apply preservesF_bind (fun o => ∃ n, o = tmpName n ++ "." ++ audio_suffix)
      · exact preservesF_mkTemp _ _ hbase
      · exact fun w a w' h => mkTemp_ok_val _ _ _ _ h
      · rintro o ⟨n, rfl⟩
        exact preservesF_exec _ _ _ (hart n _)
    · intro w a w' h
      rw [run_mkTemp_bind] at h
      exact ⟨w.nextTmp, exec_ok_val _ _ _ _ _ h⟩
    · rintro au ⟨na, rfl⟩
      apply preservesF_bind (fun a => ∃ n, a = tmpName n ++ "." ++ audio_suffix)
      · apply preservesF_bind (fun o => ∃ n, o = tmpName n ++ "." ++ audio_suffix)
        · exact preservesF_mkTemp _ _ hbase
        · exact fun w a w' h => mkTemp_ok_val _ _ _ _ h
        · rintro o ⟨n, rfl⟩
          exact preservesF_exec _ _ _ (hart n _)
      · intro w a w' h
        rw [run_mkTemp_bind] at h
        exact ⟨w.nextTmp, exec_ok_val _ _ _ _ _ h⟩
      · rintro la ⟨nl, rfl⟩
        apply preservesF_bind (fun _ : String => True)
        · exact preservesF_exec _ _ _ hout
        · exact fun _ _ _ _ => trivial
        · intro _ _
          apply preservesF_bind (fun _ : Unit => True)
          · exact preservesF_unlink _ _ (hart nv _)
          · exact fun _ _ _ _ => trivial
          · intro _ _
            apply preservesF_bind (fun _ : Unit => True)
            · exact preservesF_unlink _ _ (hart na _)
            · exact fun _ _ _ _ => trivial
            · intro _ _
              exact preservesF_unlink _ _ (hart nl _)

/-- A path shorter than 8 characters can be neither a temp-allocator base
name nor a suffixed allocator name. -/
theorem short_not_tmpName (f : String) (hlen : f.length < 8) :
    (∀ n, f ≠ tmpName n) ∧ (∀ n sfx, f ≠ tmpName n ++ "." ++ sfx) := by
  have h8 : ("/tmp/tmp" : String).length = 8 := rfl
  constructor
  · intro n h
    have hl := congrArg String.length h
    rw [tmpName, String.length_append, h8] at hl
    omega
  · intro n sfx h
    have hl := congrArg String.length h
    rw [tmpName, String.length_append, String.length_append, String.length_append, h8] at hl
    omega

/-! ### Claims -/

/-- C10: the constructor stores the input path unchanged in both cases;
with overwrite requested the output path is set equal to the input path,
ignoring any supplied output path, and without overwrite it is the
supplied output path. -/
theorem init_resolves_output_path (i : String) (o : Option String) :
    (Sox.init i o true).outfile = some i ∧
    (Sox.init i o false).outfile = o ∧
    (Sox.init i o true).infile = i ∧
    (Sox.init i o false).infile = i :=
  ⟨rfl, rfl, rfl, rfl⟩

/-- C7: the noise-sample stage builds exactly the command that clips the
audio from offset 00:00:00 for the noise-sample length — the constant
00:00:01, one second — with codec copy, targeting a freshly allocated
temp file (the allocator counter advances by one), and returns that
file path when the process exits 0. -/
theorem get_noise_sample_clips_first_second (s : Sox) (audio : String) (w : World)
    (h : (w.oracle w.execCount).exit = 0) :
    (s.get_noise_sample audio w).2.trace =
      w.trace ++ [avprog ++ " -y -i " ++ audio ++ " -acodec copy -ss 00:00:00 -t " ++
        noise_len ++ " " ++ (tmpName w.nextTmp ++ "." ++ audio_suffix)] ∧
    noise_len = "00:00:01" ∧
    (s.get_noise_sample audio w).1 = Except.ok (tmpName w.nextTmp ++ "." ++ audio_suffix) ∧
    (s.get_noise_sample audio w).2.nextTmp = w.nextTmp + 1 := by
  refine ⟨?_, rfl, ?_, ?_⟩ <;>
    simp [Sox.get_noise_sample, run_mkTemp_bind, exec_run, execWorld, fmt_noise_sample, h]

theorem get_noise_sample_clips_first_second_witness :
    ((Sox.init "a.mp4" (some "b.mp4") false).get_noise_sample "a.mp3"
        (World.start (fun _ => false) allOk)).1 = Except.ok "/tmp/tmp0.mp3" ∧
    ((Sox.init "a.mp4" (some "b.mp4") false).get_noise_sample "a.mp3"
        (World.start (fun _ => false) allOk)).2.trace =
      ["ffmpeg -y -i a.mp3 -acodec copy -ss 00:00:00 -t 00:00:01 /tmp/tmp0.mp3"] := by
  have h := get_noise_sample_clips_first_second (Sox.init "a.mp4" (some "b.mp4") false) "a.mp3"
    (World.start (fun _ => false) allOk) (by decide)
  exact ⟨h.2.2.1, h.1⟩

/-- C8: remove_noise inserts any sensitivity string verbatim into the sox
command — including the boundary values 0 and 1 — performs no range
validation (the stage behaves identically whatever the value is), and the
class-level default is 0.21. -/
theorem remove_noise_passes_sensitivity_through (s : Sox) (audio profile sens : String)
    (w : World) (h : (w.oracle w.execCount).exit = 0) :
    (s.remove_noise audio profile sens w).2.trace =
      w.trace ++ [soxprog ++ " " ++ audio ++ " " ++ (tmpName w.nextTmp ++ "." ++ audio_suffix) ++
        " noisered " ++ profile ++ " " ++ sens] ∧
    (s.remove_noise audio profile sens w).1 =
      Except.ok (tmpName w.nextTmp ++ "." ++ audio_suffix) ∧
    noise_sens = "0.21" := by
  refine ⟨?_, ?_, rfl⟩ <;>
    simp [Sox.remove_noise, run_mkTemp_bind, exec_run, execWorld, fmt_remove_noise, h]

theorem remove_noise_passes_sensitivity_through_witness :
    ((Sox.init "a.mp4" (some "b.mp4") false).remove_noise "a.mp3" "n.prof" "0"
        (World.start (fun _ => false) allOk)).2.trace =
      ["sox a.mp3 /tmp/tmp0.mp3 noisered n.prof 0"] ∧
    ((Sox.init "a.mp4" (some "b.mp4") false).remove_noise "a.mp3" "n.prof" "1"
        (World.start (fun _ => false) allOk)).2.trace =
      ["sox a.mp3 /tmp/tmp0.mp3 noisered n.prof 1"] :=
  ⟨(remove_noise_passes_sensitivity_through (Sox.init "a.mp4" (some "b.mp4") false)
      "a.mp3" "n.prof" "0" (World.start (fun _ => false) allOk) (by decide)).1,
   (remove_noise_passes_sensitivity_through (Sox.init "a.mp4" (some "b.mp4") false)
      "a.mp3" "n.prof" "1" (World.start (fun _ => false) allOk) (by decide)).1⟩

/-- C6: an invocation whose arguments contain neither -c nor -v prints the
usage lines for both modes to standard output and exits with status 1;
the world is returned untouched, so no file is created, deleted or
modified and no external process is started. -/
theorem no_flag_prints_usage_and_exits_1 (prog : String) (args : List String)
    (parse : String → Option String) (w : World)
    (hc : "-c" ∉ prog :: args) (hv : "-v" ∉ prog :: args) :
    mainM parse (prog :: args) w = (Except.ok (usageLines (basename prog), 1), w) := by
  simp [mainM, hc, hv]

theorem no_flag_prints_usage_and_exits_1_witness :
    mainM (fun _ => none) ["prog", "in.mp4", "out.mp4"] (World.start (fun _ => false) allOk) =
      (Except.ok (["Clean the noise:",
                   "prog -c IN-FILE OUT-FILE",
                   "\nIncrease the volume",
                   "prog -v FACTOR IN-FILE OUT-FILE"], 1),
       World.start (fun _ => false) allOk) :=
  no_flag_prints_usage_and_exits_1 "prog" ["in.mp4", "out.mp4"] (fun _ => none)
    (World.start (fun _ => false) allOk) (by decide) (by decide)

theorem usageLines_basename_prog :
    usageLines (basename "prog") =
      ["Clean the noise:", "prog -c IN-FILE OUT-FILE",
       "\nIncrease the volume", "prog -v FACTOR IN-FILE OUT-FILE"] := rfl

/-- C9: with -v present and the argument following it not parseable as a
number, the run fails during argument parsing with a ValueError and the
world is returned untouched: no external process has been started and no
temporary file has been created. -/
theorem v_flag_nonnumeric_fails_before_any_process (argv : List String)
    (parse : String → Option String) (w : World) (fstr : String)
    (hv : "-v" ∈ argv)
    (hn : (argv.eraseIdx (argv.indexOf "-v")).get? (argv.indexOf "-v") = some fstr)
    (hp : parse fstr = none) :
    mainM parse argv w = (Except.error Err.valueError, w) := by
  unfold mainM
  rw [if_pos hv, hn]
  simp [hp, M.raise]

theorem v_flag_nonnumeric_fails_before_any_process_witness :
    mainM (fun _ => none) ["prog", "-v", "abc", "in.mp4", "out.mp4"]
        (World.start (fun _ => false) allOk) =
      (Except.error Err.valueError, World.start (fun _ => false) allOk) :=
  v_flag_nonnumeric_fails_before_any_process ["prog", "-v", "abc", "in.mp4", "out.mp4"]
    (fun _ => none) (World.start (fun _ => false) allOk) "abc" (by decide) (by decide) rfl

/-- C1: on a job whose every external process exits with status 0 (and
writes its output file), clean runs exactly six stages in this order —
extract the video-only stream, extract the audio-only stream, clip the
noise sample from the audio, generate the noise profile from the sample,
noise-reduce the full audio with the profile and the sensitivity
constant, remux the video with the cleaned audio into the output path —
then deletes the five intermediate artifacts and returns nothing. -/
theorem clean_six_stages_deletes_artifacts (i o : String) (fs0 : String → Bool)
    (ho : o ∉ cleanTmpAll) :
    (((Sox.init i (some o) false).clean (World.start fs0 allOk)).1 = Except.ok ()) ∧
    (((Sox.init i (some o) false).clean (World.start fs0 allOk)).2.trace =
      [fmt_extract i "-an" "-vcodec copy" "/tmp/tmp0.mp4",
       fmt_extract i "-acodec copy" "-vn" "/tmp/tmp1.mp3",
       fmt_noise_sample "/tmp/tmp1.mp3" noise_len "/tmp/tmp2.mp3",
       fmt_noise_profile "/tmp/tmp2.mp3" "/tmp/tmp3.prof",
       fmt_remove_noise "/tmp/tmp1.mp3" "/tmp/tmp4.mp3" "/tmp/tmp3.prof" noise_sens,
       fmt_merge "/tmp/tmp0.mp4" "/tmp/tmp4.mp3" o]) ∧
    (∀ g ∈ cleanArtifacts,
      ((Sox.init i (some o) false).clean (World.start fs0 allOk)).2.fs g = false) := by
  simp [cleanTmpAll] at ho
  obtain ⟨ho0, ho1, ho2, ho3, ho4, ho5, ho6, ho7, ho8, ho9⟩ := ho
  refine ⟨?_, ?_, ?_⟩ <;>
    simp [Sox.clean, Sox.extract_video, Sox.extract_audio, Sox.extract, Sox.get_noise_sample,
          Sox.gen_noise_profile, Sox.remove_noise, Sox.merge, Sox.init,
          mkTemp, unlink, exec_shell_cmd_for_file, osSystem, run_bind, run_pure,
          tmpName0, tmpName1, tmpName2, tmpName3, tmpName4, optStr, World.start, allOk,
          audio_suffix, video_suffix, cleanArtifacts,
          Ne.symm ho0, Ne.symm ho1, Ne.symm ho2, Ne.symm ho3, Ne.symm ho4,
          Ne.symm ho5, Ne.symm ho6, Ne.symm ho7, Ne.symm ho8, Ne.symm ho9]

theorem clean_six_stages_deletes_artifacts_witness :
    (((Sox.init "in.mp4" (some "out.mp4") false).clean
        (World.start (fun g => g == "in.mp4") allOk)).1 = Except.ok ()) ∧
    (((Sox.init "in.mp4" (some "out.mp4") false).clean
        (World.start (fun g => g == "in.mp4") allOk)).2.fs "/tmp/tmp4.mp3" = false) := by
  have h := clean_six_stages_deletes_artifacts "in.mp4" "out.mp4" (fun g => g == "in.mp4")
    (by decide)
  exact ⟨h.1, h.2.2 "/tmp/tmp4.mp3" (by decide)⟩

/-- C4: on a job whose every external process exits with status 0 (and
writes its output file), incrvol runs exactly four stages in this order —
extract the video-only stream, extract the audio-only stream, scale the
audio volume by the factor, remux the video with the boosted audio into
the output path — then deletes the three intermediate artifacts. -/
theorem incrvol_four_stages_deletes_artifacts (i o factor : String) (fs0 : String → Bool)
    (ho : o ∉ incrTmpAll) :
    (((Sox.init i (some o) false).incrvol factor (World.start fs0 allOk)).1 = Except.ok ()) ∧
    (((Sox.init i (some o) false).incrvol factor (World.start fs0 allOk)).2.trace =
      [fmt_extract i "-an" "-vcodec copy" "/tmp/tmp0.mp4",
       fmt_extract i "-acodec copy" "-vn" "/tmp/tmp1.mp3",
       fmt_increase_volume factor "/tmp/tmp1.mp3" "/tmp/tmp2.mp3",
       fmt_merge "/tmp/tmp0.mp4" "/tmp/tmp2.mp3" o]) ∧
    (∀ g ∈ incrArtifacts,
      ((Sox.init i (some o) false).incrvol factor (World.start fs0 allOk)).2.fs g = false) := by
  simp [incrTmpAll] at ho
  obtain ⟨ho0, ho1, ho2, ho3, ho4, ho5⟩ := ho
  refine ⟨?_, ?_, ?_⟩ <;>
    simp [Sox.incrvol, Sox.extract_video, Sox.extract_audio, Sox.extract, Sox.increase_volume,
          Sox.merge, Sox.init, mkTemp, unlink, exec_shell_cmd_for_file, osSystem, run_bind,
          run_pure, tmpName0, tmpName1, tmpName2, optStr, World.start, allOk,
          audio_suffix, video_suffix, incrArtifacts,
          Ne.symm ho0, Ne.symm ho1, Ne.symm ho2, Ne.symm ho3, Ne.symm ho4, Ne.symm ho5]

theorem incrvol_four_stages_deletes_artifacts_witness :
    (((Sox.init "in.mp4" (some "loud.mp4") false).incrvol "2.0"
        (World.start (fun g => g == "in.mp4") allOk)).1 = Except.ok ()) ∧
    (((Sox.init "in.mp4" (some "loud.mp4") false).incrvol "2.0"
        (World.start (fun g => g == "in.mp4") allOk)).2.fs "/tmp/tmp2.mp3" = false) := by
  have h := incrvol_four_stages_deletes_artifacts "in.mp4" "loud.mp4" "2.0"
    (fun g => g == "in.mp4") (by decide)
  exact ⟨h.1, h.2.2 "/tmp/tmp2.mp3" (by decide)⟩

/-- C2 counterexample: a stage whose process exits non-zero without
having produced its output file raises the file-not-found error of the
deletion attempt — an error naming the path, distinct from the bare,
detail-free exception the claim promises for every non-zero exit. -/
theorem exec_failure_without_output_not_generic :
    ((exec_shell_cmd_for_file "cmd" "/tmp/out.mp4"
        (World.start (fun _ => false) (failAt 0))).1 =
      Except.error (Err.fileNotFound "/tmp/out.mp4")) ∧
    Err.fileNotFound "/tmp/out.mp4" ≠ Err.generic := by
  exact ⟨rfl, by decide⟩

/-- C2 (amended): on exit status 0 a stage returns its output path and
deletes nothing; on a non-zero exit the stage aborts the pipeline: when
the output file exists after the process ran it is deleted and the bare
detail-free exception is raised, and when it does not exist the deletio
n attempt itself raises a file-not-found error naming the path; a clean
whose first process fails runs exactly one command and attempts no later
stage. -/
theorem exec_stage_failure_contract (cmd outfile : String) (w : World) :
    ((w.oracle w.execCount).exit = 0 →
       exec_shell_cmd_for_file cmd outfile w = (Except.ok outfile, execWorld cmd outfile w) ∧
       (∀ g, w.fs g = true → (execWorld cmd outfile w).fs g = true)) ∧
    ((w.oracle w.execCount).exit ≠ 0 → (execWorld cmd outfile w).fs outfile = true →
       (exec_shell_cmd_for_file cmd outfile w).1 = Except.error Err.generic ∧
       (exec_shell_cmd_for_file cmd outfile w).2.fs outfile = false) ∧
    ((w.oracle w.execCount).exit ≠ 0 → (execWorld cmd outfile w).fs outfile = false →
       exec_shell_cmd_for_file cmd outfile w =
         (Except.error (Err.fileNotFound outfile), execWorld cmd outfile w)) ∧
    (∀ (i o : String) (fs0 : String → Bool),
       (((Sox.init i (some o) false).clean (World.start fs0 failFirst)).1 =
          Except.error Err.generic) ∧
       ((Sox.init i (some o) false).clean (World.start fs0 failFirst)).2.trace =
         [fmt_extract i "-an" "-vcodec copy" "/tmp/tmp0.mp4"] ∧
       ((Sox.init i (some o) false).clean (World.start fs0 failFirst)).2.fs
         "/tmp/tmp0.mp4" = false) := by
  refine ⟨?_, ?_, ?_, ?_⟩
  · intro h
    rw [exec_run, if_pos h]
    refine ⟨rfl, ?_⟩
    intro g hg
    by_cases hgo : g = outfile
    · subst hgo
      simp [execWorld, hg]
    · simp [execWorld, hgo, hg]
  · intro h hex
    rw [exec_run, if_neg h, if_pos hex]
    exact ⟨rfl, by simp⟩
  · intro h hex
    rw [exec_run, if_neg h, if_neg (by simp [hex])]
  · intro i o fs0
    refine ⟨?_, ?_, ?_⟩ <;>
      simp [Sox.clean, Sox.extract_video, Sox.extract_audio, Sox.extract, Sox.get_noise_sample,
            Sox.gen_noise_profile, Sox.remove_noise, Sox.merge, Sox.init,
            mkTemp, unlink, exec_shell_cmd_for_file, osSystem, run_bind, run_pure, M.raise,
            tmpName0, optStr, World.start, failFirst, audio_suffix, video_suffix]

theorem exec_stage_failure_contract_witness :
    ((exec_shell_cmd_for_file "c" "/tmp/o.mp4" (World.start (fun _ => false) allOk)).1 =
      Except.ok "/tmp/o.mp4") ∧
    ((exec_shell_cmd_for_file "c" "/tmp/o.mp4"
        (World.start (fun _ => false) failFirst)).2.fs "/tmp/o.mp4" = false) ∧
    (((Sox.init "in.mp4" (some "out.mp4") false).clean
        (World.start (fun _ => false) failFirst)).2.trace =
      [fmt_extract "in.mp4" "-an" "-vcodec copy" "/tmp/tmp0.mp4"]) := by
  have h1 := (exec_stage_failure_contract "c" "/tmp/o.mp4"
    (World.start (fun _ => false) allOk)).1 (by decide)
  have h2 := (exec_stage_failure_contract "c" "/tmp/o.mp4"
    (World.start (fun _ => false) failFirst)).2.1 (by decide) (by decide)
  have h3 := (exec_stage_failure_contract "x" "y"
    (World.start (fun _ => false) allOk)).2.2.2 "in.mp4" "out.mp4" (fun _ => false)
  exact ⟨by rw [h1.1], h2.2, h3.2.1⟩

/-- C3 counterexample: a fully successful clean run leaves the
suffix-less file /tmp/tmp0 — created during the run by the temp-name
allocator — on disk at the end, so the success path does not end with
zero leftover temporary files. -/
theorem clean_success_leaves_allocator_stub :
    ((((Sox.init "in.mp4" (some "out.mp4") false).clean
        (World.start (fun g => g == "in.mp4") allOk)).1 = Except.ok ())) ∧
    ((World.start (fun g => g == "in.mp4") allOk).fs "/tmp/tmp0" = false) ∧
    (((Sox.init "in.mp4" (some "out.mp4") false).clean
        (World.start (fun g => g == "in.mp4") allOk)).2.fs "/tmp/tmp0" = true) :=
  ⟨rfl, rfl, rfl⟩

set_option maxHeartbeats 2000000 in
/-- C3 (amended): on the all-success run each mode writes the requested
output file and deletes every suffixed intermediate artifact, and no path
other than the allocator names and the output is affected — so exactly
one new non-temporary file, at the requested path, is produced; however
the suffix-less base files created by the temp-name allocator (five for
clean, three for incrvol) remain on disk at the end of the run. -/
theorem pipelines_output_artifacts_stubs (i o factor : String) (fs0 : String → Bool)
    (ho : o ∉ cleanTmpAll) :
    ((((Sox.init i (some o) false).clean (World.start fs0 allOk)).1 = Except.ok ()) ∧
     (((Sox.init i (some o) false).clean (World.start fs0 allOk)).2.fs o = true) ∧
     (∀ g ∈ cleanArtifacts,
       ((Sox.init i (some o) false).clean (World.start fs0 allOk)).2.fs g = false) ∧
     (∀ g ∈ cleanTmpBases,
       ((Sox.init i (some o) false).clean (World.start fs0 allOk)).2.fs g = true) ∧
     (∀ g, g ∉ cleanTmpAll → g ≠ o →
       ((Sox.init i (some o) false).clean (World.start fs0 allOk)).2.fs g = fs0 g)) ∧
    ((((Sox.init i (some o) false).incrvol factor (World.start fs0 allOk)).1 = Except.ok ()) ∧
     (((Sox.init i (some o) false).incrvol factor (World.start fs0 allOk)).2.fs o = true) ∧
     (∀ g ∈ incrArtifacts,
       ((Sox.init i (some o) false).incrvol factor (World.start fs0 allOk)).2.fs g = false) ∧
     (∀ g ∈ incrTmpBases,
       ((Sox.init i (some o) false).incrvol factor (World.start fs0 allOk)).2.fs g = true) ∧
     (∀ g, g ∉ incrTmpAll → g ≠ o →
       ((Sox.init i (some o) false).incrvol factor (World.start fs0 allOk)).2.fs g = fs0 g)) := by
  simp [cleanTmpAll] at ho
  obtain ⟨ho0, ho1, ho2, ho3, ho4, ho5, ho6, ho7, ho8, ho9⟩ := ho
  constructor
  · refine ⟨?_, ?_, ?_, ?_, ?_⟩
    case _ | _ | _ | _ =>
      simp [Sox.clean, Sox.extract_video, Sox.extract_audio, Sox.extract, Sox.get_noise_sample,
            Sox.gen_noise_profile, Sox.remove_noise, Sox.merge, Sox.init,
            mkTemp, unlink, exec_shell_cmd_for_file, osSystem, run_bind, run_pure,
            tmpName0, tmpName1, tmpName2, tmpName3, tmpName4, optStr, World.start, allOk,
            audio_suffix, video_suffix, cleanArtifacts, cleanTmpBases,
            ho0, ho1, ho2, ho3, ho4, ho5, ho6, ho7, ho8, ho9,
            Ne.symm ho0, Ne.symm ho1, Ne.symm ho2, Ne.symm ho3, Ne.symm ho4,
            Ne.symm ho5, Ne.symm ho6, Ne.symm ho7, Ne.symm ho8, Ne.symm ho9]
    intro g hg hgo
    simp [cleanTmpAll] at hg
    obtain ⟨hg0, hg1, hg2, hg3, hg4, hg5, hg6, hg7, hg8, hg9⟩ := hg
    simp [Sox.clean, Sox.extract_video, Sox.extract_audio, Sox.extract, Sox.get_noise_sample,
          Sox.gen_noise_profile, Sox.remove_noise, Sox.merge, Sox.init,
          mkTemp, unlink, exec_shell_cmd_for_file, osSystem, run_bind, run_pure,
          tmpName0, tmpName1, tmpName2, tmpName3, tmpName4, optStr, World.start, allOk,
          audio_suffix, video_suffix,
          hg0, hg1, hg2, hg3, hg4, hg5, hg6, hg7, hg8, hg9, hgo,
          ho0, ho1, ho2, ho3, ho4, ho5, ho6, ho7, ho8, ho9,
          Ne.symm ho0, Ne.symm ho1, Ne.symm ho2, Ne.symm ho3, Ne.symm ho4,
          Ne.symm ho5, Ne.symm ho6, Ne.symm ho7, Ne.symm ho8, Ne.symm ho9]
  · refine ⟨?_, ?_, ?_, ?_, ?_⟩
    case _ | _ | _ | _ =>
      simp [Sox.incrvol, Sox.extract_video, Sox.extract_audio, Sox.extract, Sox.increase_volume,
            Sox.merge, Sox.init, mkTemp, unlink, exec_shell_cmd_for_file, osSystem, run_bind,
            run_pure, tmpName0, tmpName1, tmpName2, optStr, World.start, allOk,
            audio_suffix, video_suffix, incrArtifacts, incrTmpBases,
            ho0, ho1, ho2, ho5, ho6, ho7,
            Ne.symm ho0, Ne.symm ho1, Ne.symm ho2, Ne.symm ho5, Ne.symm ho6, Ne.symm ho7]
    intro g hg hgo
    simp [incrTmpAll] at hg
    obtain ⟨hg0, hg1, hg2, hg3, hg4, hg5⟩ := hg
    simp [Sox.incrvol, Sox.extract_video, Sox.extract_audio, Sox.extract, Sox.increase_volume,
          Sox.merge, Sox.init, mkTemp, unlink, exec_shell_cmd_for_file, osSystem, run_bind,
          run_pure, tmpName0, tmpName1, tmpName2, optStr, World.start, allOk,
          audio_suffix, video_suffix,
          hg0, hg1, hg2, hg3, hg4, hg5, hgo,
          ho0, ho1, ho2, ho5, ho6, ho7,
          Ne.symm ho0, Ne.symm ho1, Ne.symm ho2, Ne.symm ho5, Ne.symm ho6, Ne.symm ho7]

theorem pipelines_output_artifacts_stubs_witness :
    (((Sox.init "in.mp4" (some "out.mp4") false).clean
        (World.start (fun g => g == "in.mp4") allOk)).2.fs "out.mp4" = true) ∧
    (((Sox.init "in.mp4" (some "out.mp4") false).clean
        (World.start (fun g => g == "in.mp4") allOk)).2.fs "/tmp/tmp3" = true) ∧
    (((Sox.init "in.mp4" (some "out.mp4") false).clean
        (World.start (fun g => g == "in.mp4") allOk)).2.fs "in.mp4" = true) ∧
    (((Sox.init "in.mp4" (some "out.mp4") false).incrvol "2.0"
        (World.start (fun g => g == "in.mp4") allOk)).2.fs "out.mp4" = true) := by
  have h := pipelines_output_artifacts_stubs "in.mp4" "out.mp4" "2.0"
    (fun g => g == "in.mp4") (by decide)
  refine ⟨h.1.2.1, h.1.2.2.2.1 "/tmp/tmp3" (by decide), ?_, h.2.2.1⟩
  have hp := h.1.2.2.2.2 "in.mp4" (by decide) (by decide)
  simpa using hp

/-- C5 counterexample: a job constructed with overwrite=False but whose
supplied output path equals its input path also loses the input file when
the remux process fails — so "the input file is never deleted" does not
hold for every overwrite=False job. -/
theorem nonoverwrite_same_path_input_deleted :
    ((World.start (fun g => g == "in.mp4") (failAt 5)).fs "in.mp4" = true) ∧
    (((Sox.init "in.mp4" (some "in.mp4") false).clean
        (World.start (fun g => g == "in.mp4") (failAt 5))).2.fs "in.mp4" = false) :=
  ⟨rfl, rfl⟩

set_option maxHeartbeats 1000000 in
/-- C5 (amended): when the remux process exits non-zero the file at the
resolved output path is absent afterwards; since the constructor points
the output at the input when overwrite is requested, a remux failure on a
job built with overwrite=True deletes the input file itself; and for a
job built with overwrite=False whose output path differs from its input
path (the input not being a temp-allocator name), neither clean nor
incrvol ever changes whether the input file exists, whatever any process
does. -/
theorem remux_failure_unlinks_output :
    (∀ (s : Sox) (video audio : String) (w : World),
       (w.oracle w.execCount).exit ≠ 0 →
       ((s.merge video audio) w).2.fs (optStr s.outfile) = false) ∧
    (∀ (i : String) (fs0 : String → Bool), i ∉ cleanTmpAll → fs0 i = true →
       ((((Sox.init i none true).clean (World.start fs0 (failAt 5))).1 =
          Except.error Err.generic) ∧
        ((Sox.init i none true).clean (World.start fs0 (failAt 5))).2.fs i = false)) ∧
    (∀ (i o factor : String) (fs0 : String → Bool) (oracle : Nat → ExecResult),
       (∀ n, i ≠ tmpName n) → (∀ n sfx, i ≠ tmpName n ++ "." ++ sfx) → i ≠ o →
       (((Sox.init i (some o) false).clean (World.start fs0 oracle)).2.fs i = fs0 i ∧
        ((Sox.init i (some o) false).incrvol factor (World.start fs0 oracle)).2.fs i = fs0 i)) := by
  refine ⟨?_, ?_, ?_⟩
  · intro s video audio w h
    simp only [Sox.merge]
    rw [exec_run, if_neg h]
    split
    · simp
    · rename_i hx
      simp [execWorld] at hx
      simp [execWorld, hx.1, hx.2]
  · intro i fs0 hi hfsi
    simp [cleanTmpAll] at hi
    obtain ⟨hi0, hi1, hi2, hi3, hi4, hi5, hi6, hi7, hi8, hi9⟩ := hi
    constructor <;>
      simp [Sox.clean, Sox.extract_video, Sox.extract_audio, Sox.extract, Sox.get_noise_sample,
            Sox.gen_noise_profile, Sox.remove_noise, Sox.merge, Sox.init,
            mkTemp, unlink, exec_shell_cmd_for_file, osSystem, run_bind, run_pure, M.raise,
            tmpName0, tmpName1, tmpName2, tmpName3, tmpName4, optStr, World.start, failAt,
            audio_suffix, video_suffix, hfsi,
            hi0, hi1, hi2, hi3, hi4, hi5, hi6, hi7, hi8, hi9,
            Ne.symm hi0, Ne.symm hi1, Ne.symm hi2, Ne.symm hi3, Ne.symm hi4,
            Ne.symm hi5, Ne.symm hi6, Ne.symm hi7, Ne.symm hi8, Ne.symm hi9]
  · intro i o factor fs0 oracle hbase hart hio
    constructor
    · exact preservesF_clean (Sox.init i (some o) false) i hbase hart
        (by simpa [Sox.init, optStr] using hio) (World.start fs0 oracle)
    · exact preservesF_incrvol (Sox.init i (some o) false) factor i hbase hart
        (by simpa [Sox.init, optStr] using hio) (World.start fs0 oracle)

theorem remux_failure_unlinks_output_witness :
    (((Sox.init "in.mp4" none true).clean
        (World.start (fun g => g == "in.mp4") (failAt 5))).2.fs "in.mp4" = false) ∧
    (((Sox.init "in.mp4" (some "out.mp4") false).clean
        (World.start (fun g => g == "in.mp4") allOk)).2.fs "in.mp4" = true) ∧
    (((Sox.init "in.mp4" (some "out.mp4") false).incrvol "2.0"
        (World.start (fun g => g == "in.mp4") (failAt 2))).2.fs "in.mp4" = true) := by
  have h := remux_failure_unlinks_output
  have hshort := short_not_tmpName "in.mp4" (by decide)
  refine ⟨(h.2.1 "in.mp4" (fun g => g == "in.mp4") (by decide) (by decide)).2, ?_, ?_⟩
  · exact (h.2.2 "in.mp4" "out.mp4" "2.0" (fun g => g == "in.mp4") allOk
      hshort.1 hshort.2 (by decide)).1
  · exact (h.2.2 "in.mp4" "out.mp4" "2.0" (fun g => g == "in.mp4") (failAt 2)
      hshort.1 hshort.2 (by decide)).2
